import Mathlib

/-!
Verification of the real-time notification layer of the focusme backend
(`app/services/websocket_service.py`): the `ConnectionManager` connection
registry and the `NotificationService` dispatcher.

Modelling choices:
* A Python `dict` is an insertion-ordered association list with unique keys
  (`dictFind` / `dictSet` / `dictDel` mirror `d[k]`, `d[k] = v`, `del d[k]`).
* A Python `set` of websocket handles is a duplicate-free list
  (`setAdd` / `setDiscard` mirror `s.add` / `s.discard`); handles are `Nat`,
  user ids are `Int` (Python ints), timestamps are a `Nat` clock.
* The channel transport is modelled by a liveness environment
  `live : Nat → Bool` and per-handle inboxes; `websocket.send_json` appends
  the frame to the target inbox when the handle is live and raises
  (`Except.error`) when it is dead.
* JSON frames are flat string-keyed objects (`Msg`).
-/

/-- Python-dict lookup `d.get(k)` on an association list:
returns the value at the first occurrence of the key. -/
def dictFind {α β : Type} [DecidableEq α] (k : α) : List (α × β) → Option β
  | [] => none
  | p :: rest => if p.1 = k then some p.2 else dictFind k rest

/-- Python-dict write `d[k] = v`: replaces the value at an existing key in
place, otherwise appends the new binding at the end (insertion order). -/
def dictSet {α β : Type} [DecidableEq α] (k : α) (v : β) : List (α × β) → List (α × β)
  | [] => [(k, v)]
  | p :: rest => if p.1 = k then (k, v) :: rest else p :: dictSet k v rest

/-- Python-dict deletion `del d[k]` (no-op when the key is absent, matching
its guarded uses in the source). -/
def dictDel {α β : Type} [DecidableEq α] (k : α) : List (α × β) → List (α × β)
  | [] => []
  | p :: rest => if p.1 = k then rest else p :: dictDel k rest

/-- Keys of an association list are pairwise distinct (every Python dict
state satisfies this). -/
def keysNodup {α β : Type} (l : List (α × β)) : Prop :=
  (l.map Prod.fst).Nodup

/-- Python `set.add`. -/
def setAdd (x : Nat) (s : List Nat) : List Nat :=
  if x ∈ s then s else s ++ [x]

/-- Python `set.discard`. -/
def setDiscard (x : Nat) (s : List Nat) : List Nat :=
  s.filter (fun y => decide (y ≠ x))

/-- A JSON value as it appears in the frames of this service: a string, an
integer (timestamps are modelled by the integer clock value), or a flat
string-to-string object (the `data` payloads at issue are flat). -/
inductive JVal : Type where
  | s : String → JVal
  | n : Int → JVal
  | o : List (String × String) → JVal
deriving DecidableEq

/-- A JSON-shaped frame: a string-keyed object. -/
abbrev Msg := List (String × JVal)

/-- Per-handle delivery log: the frames each websocket handle has received. -/
abbrev Inbox := Nat → List Msg

/-- The state of `ConnectionManager.__init__`:
`active_connections : Dict[int, Set[WebSocket]]` and
`connection_times : Dict[WebSocket, datetime]`. -/
structure ConnectionManager where
  active_connections : List (Int × List Nat)
  connection_times : List (Nat × Nat)
deriving DecidableEq

/-- A fresh `ConnectionManager()`. -/
def emptyManager : ConnectionManager :=
  { active_connections := [], connection_times := [] }

/-- The registry effect of `ConnectionManager.connect`: create the user's
entry if absent, add the handle to the user's set, and record the
connection timestamp.  (The method also accepts the socket and pushes a
welcome frame on the channel; that channel effect is `World.connect`.) -/
def ConnectionManager.connect (cm : ConnectionManager) (websocket : Nat)
    (user_id : Int) (now : Nat) : ConnectionManager :=
  let ac0 := if (dictFind user_id cm.active_connections).isSome
             then cm.active_connections
             else dictSet user_id [] cm.active_connections
  let conns := (dictFind user_id ac0).getD []
  { active_connections := dictSet user_id (setAdd websocket conns) ac0,
    connection_times := dictSet websocket now cm.connection_times }

/-- `ConnectionManager.disconnect`: discard the handle from the user's set,
delete the user's entry when the set becomes empty, and delete the handle's
connection-timestamp record when present. -/
def ConnectionManager.disconnect (cm : ConnectionManager) (websocket : Nat)
    (user_id : Int) : ConnectionManager :=
  let ac :=
    match dictFind user_id cm.active_connections with
    | none => cm.active_connections
    | some conns =>
        let conns2 := setDiscard websocket conns
        if conns2 = [] then dictDel user_id cm.active_connections
        else dictSet user_id conns2 cm.active_connections
  { active_connections := ac,
    connection_times := dictDel websocket cm.connection_times }

/-- `ConnectionManager.get_connected_users`: the keys of the mapping. -/
def ConnectionManager.get_connected_users (cm : ConnectionManager) : List Int :=
  cm.active_connections.map Prod.fst

/-- Result shape of `ConnectionManager.get_stats`. -/
structure Stats where
  total_users : Nat
  total_connections : Nat
deriving DecidableEq

/-- `ConnectionManager.get_stats`. -/
def ConnectionManager.get_stats (cm : ConnectionManager) : Stats :=
  { total_users := cm.active_connections.length,
    total_connections := (cm.active_connections.map (fun p => p.2.length)).sum }

/-- `ConnectionManager.is_user_connected`. -/
def ConnectionManager.is_user_connected (cm : ConnectionManager) (user_id : Int) : Bool :=
  (dictFind user_id cm.active_connections).isSome &&
    decide (((dictFind user_id cm.active_connections).getD []).length > 0)

/-- The user's current session set (empty when the user has no entry). -/
def sessionSet (cm : ConnectionManager) (user_id : Int) : List Nat :=
  (dictFind user_id cm.active_connections).getD []

/-- The registry together with the observable channel state. -/
structure World where
  cm : ConnectionManager
  inbox : Inbox

/-- The transport primitive `websocket.send_json`: appends the frame to the
handle's channel when the handle is live, raises when the handle is dead. -/
def WebSocket.send_json (live : Nat → Bool) (message : Msg) (websocket : Nat)
    (inbox : Inbox) : Except String Inbox :=
  if live websocket then
    Except.ok (fun x => if x = websocket then inbox x ++ [message] else inbox x)
  else
    Except.error "connection closed"

/-- `ConnectionManager.send_personal_message`: tries `websocket.send_json`
and catches every exception (only logging it), so the call itself never
raises. -/
def send_personal_message (live : Nat → Bool) (message : Msg) (websocket : Nat)
    (inbox : Inbox) : Except String Inbox :=
  match WebSocket.send_json live message websocket inbox with
  | Except.ok newInbox => Except.ok newInbox
  | Except.error _ => Except.ok inbox

/-- The delivery loop of `ConnectionManager.send_to_user` over the snapshot
`connections = self.active_connections[user_id].copy()`: per handle, try
`send_personal_message` and count it, and on an exception disconnect the
dead handle instead of aborting. -/
def sendToUserLoop (live : Nat → Bool) (message : Msg) (user_id : Int) :
    List Nat → World → Nat → World × Nat
  | [], w, sent_count => (w, sent_count)
  | connection :: rest, w, sent_count =>
      match send_personal_message live message connection w.inbox with
      | Except.ok newInbox =>
          sendToUserLoop live message user_id rest
            { cm := w.cm, inbox := newInbox } (sent_count + 1)
      | Except.error _ =>
          sendToUserLoop live message user_id rest
            { cm := w.cm.disconnect connection user_id, inbox := w.inbox } sent_count

/-- `ConnectionManager.send_to_user`: returns a zero count when the user has
no entry, otherwise runs the delivery loop over a snapshot of the session
set and returns the count. -/
def send_to_user (live : Nat → Bool) (message : Msg) (w : World) (user_id : Int) :
    World × Nat :=
  match dictFind user_id w.cm.active_connections with
  | none => (w, 0)
  | some connections => sendToUserLoop live message user_id connections w 0

/-- The guard `if exclude_user and user_id == exclude_user` in `broadcast`.
Python truthiness: `exclude_user` is truthy iff it is neither `None` nor `0`. -/
def excludeGuard (exclude_user : Option Int) (user_id : Int) : Bool :=
  match exclude_user with
  | none => false
  | some e => decide (e ≠ 0) && decide (user_id = e)

/-- The inner per-handle loop of `ConnectionManager.broadcast` (the same
delivery-with-failure-isolation loop as `send_to_user`). -/
def broadcastInner (live : Nat → Bool) (message : Msg) (user_id : Int) :
    List Nat → World → Nat → World × Nat
  | [], w, sent_count => (w, sent_count)
  | connection :: rest, w, sent_count =>
      match send_personal_message live message connection w.inbox with
      | Except.ok newInbox =>
          broadcastInner live message user_id rest
            { cm := w.cm, inbox := newInbox } (sent_count + 1)
      | Except.error _ =>
          broadcastInner live message user_id rest
            { cm := w.cm.disconnect connection user_id, inbox := w.inbox } sent_count

/-- The outer loop of `ConnectionManager.broadcast` over the snapshot
`list(self.active_connections.items())`, skipping the excluded user when
the guard fires. -/
def broadcastOuter (live : Nat → Bool) (message : Msg) (exclude_user : Option Int) :
    List (Int × List Nat) → World → Nat → World × Nat
  | [], w, sent_count => (w, sent_count)
  | (user_id, connections) :: rest, w, sent_count =>
      if excludeGuard exclude_user user_id then
        broadcastOuter live message exclude_user rest w sent_count
      else
        let r := broadcastInner live message user_id connections w sent_count
        broadcastOuter live message exclude_user rest r.1 r.2

/-- `ConnectionManager.broadcast`. -/
def broadcast (live : Nat → Bool) (message : Msg) (w : World)
    (exclude_user : Option Int) : World × Nat :=
  broadcastOuter live message exclude_user w.cm.active_connections w 0

/-- The welcome frame pushed by `connect` after registration. -/
def connectionFrame (now : Nat) : Msg :=
  [("type", JVal.s "connection"),
   ("message", JVal.s "Connexion etablie avec succes"),
   ("timestamp", JVal.n now)]

/-- The full effect of `ConnectionManager.connect` on the world: registry
update followed by the welcome `send_personal_message` to the new handle. -/
def World.connect (live : Nat → Bool) (w : World) (websocket : Nat)
    (user_id : Int) (now : Nat) : World :=
  let cm2 := w.cm.connect websocket user_id now
  match send_personal_message live (connectionFrame now) websocket w.inbox with
  | Except.ok newInbox => { cm := cm2, inbox := newInbox }
  | Except.error _ => { cm := cm2, inbox := w.inbox }

/-- The notification frame built by `NotificationService.notify_user`. -/
def notificationFrame (notification_type title message : String)
    (data : List (String × String)) (now : Nat) : Msg :=
  [("type", JVal.s "notification"),
   ("notification_type", JVal.s notification_type),
   ("title", JVal.s title),
   ("message", JVal.s message),
   ("data", JVal.o data),
   ("timestamp", JVal.n now)]

/-- `NotificationService.notify_user`: builds the notification frame,
sends it through `manager.send_to_user`, and returns `sent > 0`. -/
def notify_user (live : Nat → Bool) (w : World) (user_id : Int)
    (notification_type title message : String)
    (data : Option (List (String × String))) (now : Nat) : World × Bool :=
  let frame := notificationFrame notification_type title message (data.getD []) now
  let r := send_to_user live frame w user_id
  (r.1, decide (r.2 > 0))

/-- `NotificationService.notify_app_blocked`. -/
def notify_app_blocked (live : Nat → Bool) (w : World) (user_id : Int)
    (app_name : String) (now : Nat) : World × Bool :=
  notify_user live w user_id "error" "Application bloquee"
    (app_name ++ " est maintenant bloquee - limite atteinte")
    (some [("app_name", app_name)]) now

/-- A connect or disconnect event on the registry. -/
inductive Op : Type where
  | connect (websocket : Nat) (user_id : Int) (now : Nat)
  | disconnect (websocket : Nat) (user_id : Int)
deriving DecidableEq

/-- Apply one event to the registry. -/
def applyOp (cm : ConnectionManager) : Op → ConnectionManager
  | Op.connect websocket user_id now => cm.connect websocket user_id now
  | Op.disconnect websocket user_id => cm.disconnect websocket user_id

/-- Run a sequence of events on the registry. -/
def runOps (cm : ConnectionManager) : List Op → ConnectionManager
  | [] => cm
  | op :: rest => runOps (applyOp cm op) rest

/-- Modelled from the spec sentence for the refinement claim about
`get_connected_users`: one step of the reference semantics, on the set of
(user id, handle) pairs that are connected and not yet disconnected. -/
def specStep (ps : List (Int × Nat)) : Op → List (Int × Nat)
  | Op.connect websocket user_id _ =>
      if (user_id, websocket) ∈ ps then ps else ps ++ [(user_id, websocket)]
  | Op.disconnect websocket user_id =>
      ps.filter (fun p => decide (p ≠ (user_id, websocket)))

/-- Reference semantics folded over an event sequence. -/
def specRun (ps : List (Int × Nat)) : List Op → List (Int × Nat)
  | [] => ps
  | op :: rest => specRun (specStep ps op) rest

/-- The reference set of currently connected (user id, handle) pairs after
an event sequence, starting from nothing connected. -/
def specConnectedPairs (ops : List Op) : List (Int × Nat) :=
  specRun [] ops

/-! ### Association-list dictionary lemmas -/

lemma dictFind_dictSet_self {α β : Type} [DecidableEq α] (k : α) (v : β)
    (l : List (α × β)) : dictFind k (dictSet k v l) = some v := by
  induction l with
  | nil => simp [dictSet, dictFind]
  | cons p rest ih =>
      by_cases h : p.1 = k <;> simp [dictSet, dictFind, h, ih]

lemma dictFind_dictSet_ne {α β : Type} [DecidableEq α] {k k2 : α} (v : β)
    (l : List (α × β)) (h : k2 ≠ k) :
    dictFind k2 (dictSet k v l) = dictFind k2 l := by
  have hk : ¬ (k = k2) := fun he => h he.symm
  induction l with
  | nil => simp [dictSet, dictFind, hk]
  | cons p rest ih =>
      by_cases hp : p.1 = k
      · have hp2 : ¬ (p.1 = k2) := by rw [hp]; exact hk
        simp [dictSet, dictFind, hp, hk, hp2]
      · by_cases hp2 : p.1 = k2 <;> simp [dictSet, dictFind, hp, hp2, ih, h]

lemma dictFind_dictDel_ne {α β : Type} [DecidableEq α] {k k2 : α}
    (l : List (α × β)) (h : k2 ≠ k) :
    dictFind k2 (dictDel k l) = dictFind k2 l := by
  induction l with
  | nil => simp [dictDel]
  | cons p rest ih =>
      by_cases hp : p.1 = k
      · have hk : ¬ (k = k2) := fun he => h he.symm
        simp [dictDel, dictFind, hp, hk]
      · by_cases hp2 : p.1 = k2 <;> simp [dictDel, dictFind, hp, hp2, ih, h]

lemma dictSet_find_self {α β : Type} [DecidableEq α] {k : α} {v : β}
    {l : List (α × β)} (h : dictFind k l = some v) : dictSet k v l = l := by
  induction l with
  | nil => simp [dictFind] at h
  | cons p rest ih =>
      by_cases hp : p.1 = k
      · simp only [dictFind, if_pos hp] at h
        injection h with h2
        simp only [dictSet, if_pos hp]
        rw [← hp, ← h2]
      · simp only [dictFind, if_neg hp] at h
        simp only [dictSet, if_neg hp]
        rw [ih h]

lemma dictDel_not_mem {α β : Type} [DecidableEq α] {k : α}
    {l : List (α × β)} (h : dictFind k l = none) : dictDel k l = l := by
  induction l with
  | nil => simp [dictDel]
  | cons p rest ih =>
      by_cases hp : p.1 = k
      · simp [dictFind, hp] at h
      · simp only [dictFind, if_neg hp] at h
        simp only [dictDel, if_neg hp]
        rw [ih h]

lemma mem_keys_iff_find_isSome {α β : Type} [DecidableEq α] (k : α)
    (l : List (α × β)) : k ∈ l.map Prod.fst ↔ (dictFind k l).isSome := by
  induction l with
  | nil => simp [dictFind]
  | cons p rest ih =>
      by_cases hp : p.1 = k
      · simp [dictFind, hp]
      · have hp2 : ¬ (k = p.1) := fun he => hp he.symm
        simp [dictFind, hp, hp2, ih]

lemma dictFind_eq_none_iff {α β : Type} [DecidableEq α] (k : α)
    (l : List (α × β)) : dictFind k l = none ↔ k ∉ l.map Prod.fst := by
  rw [mem_keys_iff_find_isSome]
  cases h : dictFind k l <;> simp [h]

lemma map_fst_dictSet {α β : Type} [DecidableEq α] (k : α) (v : β)
    (l : List (α × β)) :
    (dictSet k v l).map Prod.fst =
      if (dictFind k l).isSome then l.map Prod.fst else l.map Prod.fst ++ [k] := by
  induction l with
  | nil => simp [dictSet, dictFind]
  | cons p rest ih =>
      by_cases hp : p.1 = k
      · simp [dictSet, dictFind, hp]
      · simp only [dictSet, dictFind, if_neg hp, List.map_cons]
        rw [ih]
        by_cases hs : (dictFind k rest).isSome <;> simp [hs]

lemma keysNodup_dictSet {α β : Type} [DecidableEq α] (k : α) (v : β)
    {l : List (α × β)} (h : keysNodup l) : keysNodup (dictSet k v l) := by
  unfold keysNodup at h ⊢
  rw [map_fst_dictSet]
  by_cases hs : (dictFind k l).isSome
  · simpa [hs]
  · have hk : k ∉ l.map Prod.fst := by
      rw [mem_keys_iff_find_isSome]
      simpa using hs
    simp [hs, List.nodup_append, h, hk]

lemma dictDel_sublist {α β : Type} [DecidableEq α] (k : α)
    (l : List (α × β)) : List.Sublist (dictDel k l) l := by
  induction l with
  | nil => simp [dictDel]
  | cons p rest ih =>
      by_cases hp : p.1 = k
      · simp only [dictDel, if_pos hp]
        exact List.sublist_cons_self p rest
      · simpa [dictDel, hp] using ih.cons₂ p

lemma keysNodup_dictDel {α β : Type} [DecidableEq α] (k : α)
    {l : List (α × β)} (h : keysNodup l) : keysNodup (dictDel k l) :=
  h.sublist ((dictDel_sublist k l).map Prod.fst)

lemma dictFind_dictDel_self {α β : Type} [DecidableEq α] (k : α)
    {l : List (α × β)} (hk : keysNodup l) : dictFind k (dictDel k l) = none := by
  induction l with
  | nil => simp [dictDel, dictFind]
  | cons p rest ih =>
      unfold keysNodup at hk
      simp only [List.map_cons, List.nodup_cons] at hk
      by_cases hp : p.1 = k
      · subst hp
        simp [dictDel, dictFind_eq_none_iff, hk.1]
      · simp [dictDel, dictFind, hp, ih hk.2]

lemma dictFind_mem {α β : Type} [DecidableEq α] {k : α} {v : β}
    {l : List (α × β)} (h : dictFind k l = some v) : (k, v) ∈ l := by
  induction l with
  | nil => simp [dictFind] at h
  | cons p rest ih =>
      by_cases hp : p.1 = k
      · simp only [dictFind, if_pos hp] at h
        injection h with h2
        have he : (k, v) = p := by rw [← hp, ← h2]
        rw [he]
        exact List.mem_cons_self p rest
      · simp only [dictFind, if_neg hp] at h
        exact List.mem_cons_of_mem p (ih h)

lemma mem_dictSet_elim {α β : Type} [DecidableEq α] {k : α} {v : β}
    {e : α × β} {l : List (α × β)} (h : e ∈ dictSet k v l) :
    e ∈ l ∨ e = (k, v) := by
  induction l with
  | nil =>
      simp [dictSet] at h
      right
      exact h
  | cons p rest ih =>
      by_cases hp : p.1 = k
      · simp only [dictSet, if_pos hp] at h
        rcases List.mem_cons.mp h with h1 | h1
        · right; exact h1
        · left; exact List.mem_cons_of_mem p h1
      · simp only [dictSet, if_neg hp] at h
        rcases List.mem_cons.mp h with h1 | h1
        · left; rw [h1]; exact List.mem_cons_self p rest
        · rcases ih h1 with h2 | h2
          · left; exact List.mem_cons_of_mem p h2
          · right; exact h2

lemma self_mem_dictSet {α β : Type} [DecidableEq α] (k : α) (v : β)
    (l : List (α × β)) : (k, v) ∈ dictSet k v l := by
  induction l with
  | nil => simp [dictSet]
  | cons p rest ih =>
      by_cases hp : p.1 = k
      · simp [dictSet, hp]
      · simp only [dictSet, if_neg hp]
        exact List.mem_cons_of_mem p ih

lemma mem_dictSet_of_ne {α β : Type} [DecidableEq α] {k : α} (v : β)
    {e : α × β} {l : List (α × β)} (he : e ∈ l) (h : e.1 ≠ k) :
    e ∈ dictSet k v l := by
  induction l with
  | nil => simp at he
  | cons p rest ih =>
      rcases List.mem_cons.mp he with h1 | h1
      · subst h1
        simp only [dictSet, if_neg h]
        exact List.mem_cons_self e (dictSet k v rest)
      · by_cases hp : p.1 = k
        · simp only [dictSet, if_pos hp]
          exact List.mem_cons_of_mem _ h1
        · simp only [dictSet, if_neg hp]
          exact List.mem_cons_of_mem p (ih h1)

lemma mem_eq_of_find {α β : Type} [DecidableEq α] {k : α} {v : β}
    {e : α × β} {l : List (α × β)} (hk : keysNodup l)
    (hf : dictFind k l = some v) (he : e ∈ l) (h1 : e.1 = k) : e = (k, v) := by
  induction l with
  | nil => simp at he
  | cons p rest ih =>
      unfold keysNodup at hk
      simp only [List.map_cons, List.nodup_cons] at hk
      by_cases hp : p.1 = k
      · simp only [dictFind, if_pos hp] at hf
        injection hf with h2
        rcases List.mem_cons.mp he with h3 | h3
        · rw [h3, ← hp, ← h2]
        · exfalso
          apply hk.1
          rw [hp, ← h1]
          exact List.mem_map_of_mem Prod.fst h3
      · simp only [dictFind, if_neg hp] at hf
        rcases List.mem_cons.mp he with h3 | h3
        · exfalso
          apply hp
          rw [← h3, h1]
        · exact ih hk.2 hf h3

lemma mem_dictDel_iff {α β : Type} [DecidableEq α] {k : α}
    {e : α × β} {l : List (α × β)} (hk : keysNodup l) :
    e ∈ dictDel k l ↔ e ∈ l ∧ e.1 ≠ k := by
  induction l with
  | nil => simp [dictDel]
  | cons p rest ih =>
      unfold keysNodup at hk
      simp only [List.map_cons, List.nodup_cons] at hk
      by_cases hp : p.1 = k
      · simp only [dictDel, if_pos hp]
        constructor
        · intro hmem
          refine ⟨List.mem_cons_of_mem p hmem, ?_⟩
          intro hek
          apply hk.1
          rw [hp, ← hek]
          exact List.mem_map_of_mem Prod.fst hmem
        · rintro ⟨hmem, hek⟩
          rcases List.mem_cons.mp hmem with h3 | h3
          · exfalso; apply hek; rw [h3, hp]
          · exact h3
      · simp only [dictDel, if_neg hp]
        constructor
        · intro hmem
          rcases List.mem_cons.mp hmem with h3 | h3
          · refine ⟨by rw [h3]; exact List.mem_cons_self p rest, ?_⟩
            rw [h3]; exact hp
          · rcases (ih hk.2).mp h3 with ⟨h4, h5⟩
            exact ⟨List.mem_cons_of_mem p h4, h5⟩
        · rintro ⟨hmem, hek⟩
          rcases List.mem_cons.mp hmem with h3 | h3
          · rw [h3]; exact List.mem_cons_self p (dictDel k rest)
          · exact List.mem_cons_of_mem p ((ih hk.2).mpr ⟨h3, hek⟩)

lemma mem_dictSet_iff {α β : Type} [DecidableEq α] {k : α} {v : β}
    {e : α × β} {l : List (α × β)} (hk : keysNodup l) :
    e ∈ dictSet k v l ↔ (e ∈ l ∧ e.1 ≠ k) ∨ e = (k, v) := by
  constructor
  · intro hmem
    rcases mem_dictSet_elim hmem with h1 | h1
    · by_cases h2 : e.1 = k
      · right
        cases hf : dictFind k l with
        | none =>
            exfalso
            rw [dictFind_eq_none_iff] at hf
            apply hf
            rw [← h2]
            exact List.mem_map_of_mem Prod.fst h1
        | some v0 =>
            have he0 : e = (k, v0) := mem_eq_of_find hk hf h1 h2
            -- e is the old entry; but the old entry with key k is replaced,
            -- so e can only be in dictSet if v0 = v
            rcases mem_dictSet_elim hmem with h3 | h3
            · -- analyze positions: use nodup keys to show the k-entry of
              -- dictSet is (k, v)
              have : dictFind k (dictSet k v l) = some v := dictFind_dictSet_self k v l
              have he1 : e = (k, v) :=
                mem_eq_of_find (keysNodup_dictSet k v hk) this hmem h2
              exact he1
            · exact h3
      · left; exact ⟨h1, h2⟩
    · right; exact h1
  · intro hmem
    rcases hmem with ⟨h1, h2⟩ | h1
    · exact mem_dictSet_of_ne v h1 h2
    · rw [h1]; exact self_mem_dictSet k v l

lemma dictSet_dictSet {α β : Type} [DecidableEq α] (k : α) (v v0 : β)
    (l : List (α × β)) : dictSet k v (dictSet k v0 l) = dictSet k v l := by
  induction l with
  | nil => simp [dictSet]
  | cons p rest ih =>
      by_cases hp : p.1 = k
      · simp [dictSet, hp]
      · simp [dictSet, hp, ih]

lemma dictSet_append {α β : Type} [DecidableEq α] {k : α} (v : β)
    {l : List (α × β)} (h : dictFind k l = none) :
    dictSet k v l = l ++ [(k, v)] := by
  induction l with
  | nil => simp [dictSet]
  | cons p rest ih =>
      by_cases hp : p.1 = k
      · simp [dictFind, hp] at h
      · simp only [dictFind, if_neg hp] at h
        simp [dictSet, hp, ih h]

/-! ### Set (duplicate-free list) lemmas -/

lemma mem_setAdd {x y : Nat} {s : List Nat} : x ∈ setAdd y s ↔ x ∈ s ∨ x = y := by
  unfold setAdd
  by_cases h : y ∈ s
  · simp only [if_pos h]
    constructor
    · intro h2; left; exact h2
    · rintro (h2 | h2)
      · exact h2
      · rw [h2]; exact h
  · simp [if_neg h, List.mem_append]

lemma setAdd_ne_nil (y : Nat) (s : List Nat) : setAdd y s ≠ [] := by
  unfold setAdd
  by_cases h : y ∈ s
  · simp only [if_pos h]
    intro he
    rw [he] at h
    simp at h
  · simp [if_neg h]

lemma setAdd_nodup {y : Nat} {s : List Nat} (h : s.Nodup) : (setAdd y s).Nodup := by
  unfold setAdd
  by_cases hm : y ∈ s
  · simpa [hm]
  · simp [hm, List.nodup_append, h]

lemma setAdd_eq_of_mem {y : Nat} {s : List Nat} (h : y ∈ s) : setAdd y s = s := by
  simp [setAdd, h]

lemma mem_setDiscard {x y : Nat} {s : List Nat} :
    x ∈ setDiscard y s ↔ x ∈ s ∧ x ≠ y := by
  simp [setDiscard, List.mem_filter]

lemma setDiscard_nodup {y : Nat} {s : List Nat} (h : s.Nodup) :
    (setDiscard y s).Nodup := h.filter _

lemma setDiscard_setDiscard (y : Nat) (s : List Nat) :
    setDiscard y (setDiscard y s) = setDiscard y s := by
  unfold setDiscard
  rw [List.filter_filter]
  congr 1
  funext z
  by_cases h : z = y <;> simp [h]

lemma setDiscard_eq_nil_iff {y : Nat} {s : List Nat} :
    setDiscard y s = [] ↔ ∀ x ∈ s, x = y := by
  unfold setDiscard
  rw [List.filter_eq_nil_iff]
  constructor
  · intro h x hx
    have := h x hx
    simpa using this
  · intro h x hx
    simpa using h x hx

lemma setDiscard_not_mem {y : Nat} {s : List Nat} (h : y ∉ s) :
    setDiscard y s = s := by
  unfold setDiscard
  apply List.filter_eq_self.mpr
  intro x hx
  simp only [decide_eq_true_eq]
  intro he
  apply h
  rw [← he]
  exact hx

/-! ### Delivery-layer lemmas -/

/-- The effective channel update of one `send_personal_message` call:
append the frame when the handle is live, drop it silently otherwise. -/
def deliver (live : Nat → Bool) (message : Msg) (websocket : Nat)
    (inbox : Inbox) : Inbox :=
  if live websocket then
    (fun x => if x = websocket then inbox x ++ [message] else inbox x)
  else inbox

/-- `send_personal_message` never raises: it always returns `Except.ok`,
with the `deliver` channel update. -/
lemma send_personal_message_eq (live : Nat → Bool) (message : Msg)
    (websocket : Nat) (inbox : Inbox) :
    send_personal_message live message websocket inbox =
      Except.ok (deliver live message websocket inbox) := by
  unfold send_personal_message WebSocket.send_json deliver
  by_cases h : live websocket <;> simp [h]

/-- Iterated `deliver` over a list of handles. -/
def deliverList (live : Nat → Bool) (message : Msg) : List Nat → Inbox → Inbox
  | [], inbox => inbox
  | c :: rest, inbox => deliverList live message rest (deliver live message c inbox)

lemma deliver_ne {x websocket : Nat} (live : Nat → Bool) (message : Msg)
    (inbox : Inbox) (h : x ≠ websocket) :
    deliver live message websocket inbox x = inbox x := by
  unfold deliver
  by_cases hl : live websocket <;> simp [hl, h]

lemma deliver_live {websocket : Nat} {live : Nat → Bool} (message : Msg)
    (inbox : Inbox) (h : live websocket = true) :
    deliver live message websocket inbox websocket = inbox websocket ++ [message] := by
  simp [deliver, h]

lemma mem_deliver_mono {a : Msg} {x websocket : Nat} {live : Nat → Bool}
    {message : Msg} {inbox : Inbox} (h : a ∈ inbox x) :
    a ∈ deliver live message websocket inbox x := by
  unfold deliver
  by_cases hl : live websocket
  · simp only [hl, if_true]
    by_cases hx : x = websocket
    · simp [hx]
      left
      rw [← hx]
      exact h
    · simp [hx]
      exact h
  · simp [hl]
    exact h

lemma deliverList_not_mem {x : Nat} (live : Nat → Bool) (message : Msg) :
    ∀ (cs : List Nat) (inbox : Inbox), x ∉ cs →
      deliverList live message cs inbox x = inbox x := by
  intro cs
  induction cs with
  | nil => intro inbox _; rfl
  | cons c rest ih =>
      intro inbox hx
      have hxc : x ≠ c := fun he => hx (by rw [he]; exact List.mem_cons_self c rest)
      have hxr : x ∉ rest := fun he => hx (List.mem_cons_of_mem c he)
      simp only [deliverList]
      rw [ih _ hxr, deliver_ne live message inbox hxc]

lemma mem_deliverList_mono {a : Msg} {x : Nat} {live : Nat → Bool}
    {message : Msg} : ∀ {cs : List Nat} {inbox : Inbox}, a ∈ inbox x →
      a ∈ deliverList live message cs inbox x := by
  intro cs
  induction cs with
  | nil => intro inbox h; exact h
  | cons c rest ih =>
      intro inbox h
      simp only [deliverList]
      exact ih (mem_deliver_mono h)

lemma mem_deliverList_of_live {x : Nat} {live : Nat → Bool} (message : Msg)
    (hl : live x = true) : ∀ {cs : List Nat} (inbox : Inbox), x ∈ cs →
      message ∈ deliverList live message cs inbox x := by
  intro cs
  induction cs with
  | nil => intro inbox h; simp at h
  | cons c rest ih =>
      intro inbox h
      simp only [deliverList]
      rcases List.mem_cons.mp h with h1 | h1
      · subst h1
        apply mem_deliverList_mono
        rw [deliver_live message inbox hl]
        simp
      · exact ih _ h1

/-- The `send_to_user` delivery loop: since `send_personal_message` never
raises, the loop never disconnects anything, counts every handle, and its
channel effect is `deliverList`. -/
lemma sendToUserLoop_eq (live : Nat → Bool) (message : Msg) (user_id : Int) :
    ∀ (cs : List Nat) (w : World) (n : Nat),
      sendToUserLoop live message user_id cs w n =
        ({ cm := w.cm, inbox := deliverList live message cs w.inbox }, n + cs.length) := by
  intro cs
  induction cs with
  | nil => intro w n; simp [sendToUserLoop, deliverList]
  | cons c rest ih =>
      intro w n
      simp only [sendToUserLoop, send_personal_message_eq]
      rw [ih]
      simp only [deliverList, List.length_cons]
      congr 1
      omega

/-- The inner `broadcast` loop behaves exactly like the `send_to_user` loop. -/
lemma broadcastInner_eq (live : Nat → Bool) (message : Msg) (user_id : Int) :
    ∀ (cs : List Nat) (w : World) (n : Nat),
      broadcastInner live message user_id cs w n =
        ({ cm := w.cm, inbox := deliverList live message cs w.inbox }, n + cs.length) := by
  intro cs
  induction cs with
  | nil => intro w n; simp [broadcastInner, deliverList]
  | cons c rest ih =>
      intro w n
      simp only [broadcastInner, send_personal_message_eq]
      rw [ih]
      simp only [deliverList, List.length_cons]
      congr 1
      omega

/-- `send_to_user` on a user with an entry: counts every handle of the
snapshot and leaves the registry untouched. -/
lemma send_to_user_some {w : World} {user_id : Int} {conns : List Nat}
    (live : Nat → Bool) (message : Msg)
    (h : dictFind user_id w.cm.active_connections = some conns) :
    send_to_user live message w user_id =
      ({ cm := w.cm, inbox := deliverList live message conns w.inbox }, conns.length) := by
  unfold send_to_user
  rw [h]
  simp only
  rw [sendToUserLoop_eq]
  simp

/-- `send_to_user` on a user with no entry is the identity with count 0. -/
lemma send_to_user_none {w : World} {user_id : Int} (live : Nat → Bool)
    (message : Msg) (h : dictFind user_id w.cm.active_connections = none) :
    send_to_user live message w user_id = (w, 0) := by
  unfold send_to_user
  rw [h]

/-! ### Concrete fixtures -/

/-- A world in which user 7 is connected through handles 1 and 2 and the
channels are empty. -/
def mixedWorld : World :=
  { cm := { active_connections := [(7, [1, 2])], connection_times := [(1, 0), (2, 0)] },
    inbox := fun _ => [] }

/-- Liveness environment in which precisely handle 1 is dead. -/
def liveExcept1 : Nat → Bool := fun x => decide (x ≠ 1)

/-- A sample frame. -/
def pingMsg : Msg := [("type", JVal.s "ping")]

/-- The C4 example scenario: connect user 7 with handles 1 and 2 and user 9
with handle 3. -/
def scenarioCM3 : ConnectionManager :=
  ((emptyManager.connect 1 7 0).connect 2 7 1).connect 3 9 2

/-- The scenario after disconnecting handle 1 of user 7. -/
def scenarioCM4 : ConnectionManager := scenarioCM3.disconnect 1 7

/-- The scenario after also disconnecting handle 2 of user 7. -/
def scenarioCM5 : ConnectionManager := scenarioCM4.disconnect 2 7

/-! ### Claim theorems: delivery to a single user -/

/-- C6: `send_to_user` to a user id with no entry in the registry returns a
zero count, raises no error (the embedding is a total function), and leaves
the registry and every channel unchanged. -/
theorem C6_send_to_user_unconnected (live : Nat → Bool) (message : Msg)
    (w : World) (user_id : Int)
    (h : dictFind user_id w.cm.active_connections = none) :
    send_to_user live message w user_id = (w, 0) :=
  send_to_user_none live message h

/-- Witness for C6 at a concrete unconnected user id. -/
theorem C6_witness :
    dictFind 5 (World.mk emptyManager (fun _ => [])).cm.active_connections = none ∧
    send_to_user (fun _ => true) pingMsg (World.mk emptyManager (fun _ => [])) 5 =
      (World.mk emptyManager (fun _ => []), 0) :=
  ⟨rfl, C6_send_to_user_unconnected (fun _ => true) pingMsg
    (World.mk emptyManager (fun _ => [])) 5 rfl⟩

/-- C8: `send_personal_message` absorbs every send exception (it always
returns `Except.ok`), so the error branch inside the delivery loop of
`send_to_user` is unreachable: for every user with an entry in the
registry, `send_to_user` returns the number of handles in that user's
session set at call time regardless of handle liveness, and removes no
handle from the registry. -/
theorem C8_error_branch_unreachable (live : Nat → Bool) (message : Msg)
    (w : World) (user_id : Int) (conns : List Nat)
    (h : dictFind user_id w.cm.active_connections = some conns) :
    (∀ (m : Msg) (c : Nat) (ib : Inbox), ∃ ib2,
        send_personal_message live m c ib = Except.ok ib2) ∧
    (send_to_user live message w user_id).2 = conns.length ∧
    (send_to_user live message w user_id).1.cm = w.cm := by
  refine ⟨fun m c ib => ⟨deliver live m c ib, send_personal_message_eq live m c ib⟩, ?_, ?_⟩
  · rw [send_to_user_some live message h]
  · rw [send_to_user_some live message h]

/-- Witness for C8: user 7 with handles 1 (dead) and 2 (live). -/
theorem C8_witness :
    (∀ (m : Msg) (c : Nat) (ib : Inbox), ∃ ib2,
        send_personal_message liveExcept1 m c ib = Except.ok ib2) ∧
    (send_to_user liveExcept1 pingMsg mixedWorld 7).2 = 2 ∧
    (send_to_user liveExcept1 pingMsg mixedWorld 7).1.cm = mixedWorld.cm :=
  C8_error_branch_unreachable liveExcept1 pingMsg mixedWorld 7 [1, 2] rfl

/-- C1, evaluated at the failing input (code bug): with one dead handle (1)
and one live handle (2), `send_to_user` returns 2 rather than 1, the dead
handle is NOT removed from the registry, and only the live handle received
the frame.  The `except` branch of `send_to_user` that the source comments
document as disconnecting dead connections is unreachable because
`send_personal_message` already catches the exception. -/
theorem C1_dead_handle_divergence :
    (send_to_user liveExcept1 pingMsg mixedWorld 7).2 = 2 ∧
    (send_to_user liveExcept1 pingMsg mixedWorld 7).1.cm = mixedWorld.cm ∧
    (1 : Nat) ∈ sessionSet (send_to_user liveExcept1 pingMsg mixedWorld 7).1.cm 7 ∧
    (send_to_user liveExcept1 pingMsg mixedWorld 7).1.inbox 1 = [] ∧
    (send_to_user liveExcept1 pingMsg mixedWorld 7).1.inbox 2 = [pingMsg] := by
  refine ⟨?_, ?_, ?_, ?_, ?_⟩ <;> decide

/-- C4: the example scenario. Stats after the three connects are
(2 users, 3 connections); after disconnecting handle 1 of user 7,
(2 users, 2 connections); after disconnecting handle 2 of user 7,
(1 user, 1 connection) and user 7 is absent from `get_connected_users`. -/
theorem C4_stats_scenario :
    scenarioCM3.get_stats = { total_users := 2, total_connections := 3 } ∧
    scenarioCM4.get_stats = { total_users := 2, total_connections := 2 } ∧
    scenarioCM5.get_stats = { total_users := 1, total_connections := 1 } ∧
    (7 : Int) ∉ scenarioCM5.get_connected_users := by
  refine ⟨?_, ?_, ?_, ?_⟩ <;> decide

/-! ### Claim theorems: disconnect as a no-op -/

/-- C7 counterexample: handle 1 was connected under user 1; disconnecting it
under user 2 satisfies the claim's hypothesis (handle 1 is not in user 2's
session set) yet changes the registry state, because the handle's
connection-timestamp record is deleted unconditionally. -/
theorem C7_counterexample :
    (1 : Nat) ∉ sessionSet (emptyManager.connect 1 1 0) 2 ∧
    (emptyManager.connect 1 1 0).disconnect 1 2 ≠ emptyManager.connect 1 1 0 := by
  refine ⟨?_, ?_⟩ <;> decide

/-- C7 amended: disconnecting a handle that is not in the given user's
session set, where that user's entry is not an empty set, and that has no
connection-timestamp record (in particular any handle that was never
connected) raises no exception (the embedding is total) and is a complete
no-op; and on every registry state whose two dicts are well-formed
(distinct keys), disconnect is idempotent. -/
theorem C7_disconnect_noop_and_idempotent (cm : ConnectionManager)
    (websocket : Nat) (user_id : Int)
    (h1 : websocket ∉ sessionSet cm user_id)
    (h2 : dictFind user_id cm.active_connections ≠ some [])
    (h3 : dictFind websocket cm.connection_times = none) :
    cm.disconnect websocket user_id = cm ∧
    (∀ cm2 : ConnectionManager, keysNodup cm2.active_connections →
      keysNodup cm2.connection_times →
      (cm2.disconnect websocket user_id).disconnect websocket user_id =
        cm2.disconnect websocket user_id) := by
  constructor
  · obtain ⟨ac, times⟩ := cm
    unfold ConnectionManager.disconnect
    simp only [ConnectionManager.mk.injEq]
    constructor
    · cases hf : dictFind user_id ac with
      | none => simp
      | some conns =>
          simp only
          have hw : websocket ∉ conns := by
            unfold sessionSet at h1
            simp only [hf, Option.getD_some] at h1
            exact h1
          have hd : setDiscard websocket conns = conns := setDiscard_not_mem hw
          rw [hd]
          have hne : conns ≠ [] := by
            intro he
            apply h2
            rw [hf, he]
          simp only [if_neg hne]
          exact dictSet_find_self hf
    · exact dictDel_not_mem h3
  · intro cm2 hkac hkt
    obtain ⟨ac, times⟩ := cm2
    unfold ConnectionManager.disconnect
    simp only [ConnectionManager.mk.injEq]
    simp only at hkac hkt
    constructor
    · cases hf : dictFind user_id ac with
      | none =>
          simp only [hf]
      | some conns =>
          simp only [hf]
          by_cases he : setDiscard websocket conns = []
          · simp only [if_pos he]
            rw [dictFind_dictDel_self user_id hkac]
          · simp only [if_neg he]
            rw [dictFind_dictSet_self]
            simp only [setDiscard_setDiscard, if_neg he, dictSet_dictSet]
    · apply dictDel_not_mem
      exact dictFind_dictDel_self websocket hkt

/-- Witness for the amended C7: disconnecting the never-connected handle 2
under user 5. -/
theorem C7_witness :
    (emptyManager.connect 1 1 0).disconnect 2 5 = emptyManager.connect 1 1 0 ∧
    (∀ cm2 : ConnectionManager, keysNodup cm2.active_connections →
      keysNodup cm2.connection_times →
      (cm2.disconnect 2 5).disconnect 2 5 = cm2.disconnect 2 5) :=
  C7_disconnect_noop_and_idempotent (emptyManager.connect 1 1 0) 2 5
    (by decide) (by decide) (by decide)

/-! ### Broadcast lemmas -/

/-- The number of handle sends counted by one broadcast pass. -/
def countEntries (exclude_user : Option Int) : List (Int × List Nat) → Nat
  | [] => 0
  | e :: rest =>
      (if excludeGuard exclude_user e.1 then 0 else e.2.length) +
        countEntries exclude_user rest

lemma excludeGuard_some_iff {U uid : Int} (hU : U ≠ 0) :
    excludeGuard (some U) uid = true ↔ uid = U := by
  simp [excludeGuard, hU]

lemma excludeGuard_some_false_iff {U uid : Int} (hU : U ≠ 0) :
    excludeGuard (some U) uid = false ↔ uid ≠ U := by
  rw [← Bool.not_eq_true, not_iff_not]
  exact excludeGuard_some_iff hU

lemma countEntries_eq_filter (exclude_user : Option Int) :
    ∀ entries : List (Int × List Nat),
      countEntries exclude_user entries =
        ((entries.filter (fun e => !excludeGuard exclude_user e.1)).map
          (fun e => e.2.length)).sum := by
  intro entries
  induction entries with
  | nil => rfl
  | cons e rest ih =>
      by_cases hg : excludeGuard exclude_user e.1 <;>
        simp [countEntries, List.filter_cons, hg, ih]

/-- Full characterisation of the outer broadcast loop: the registry is never
mutated (the dead-handle branch is unreachable), every handle of every
non-skipped entry is counted, handles that occur in no non-skipped entry
keep their channel unchanged, channels only grow, and every live handle of
a non-skipped entry receives the frame. -/
lemma broadcastOuter_spec (live : Nat → Bool) (message : Msg)
    (exclude_user : Option Int) :
    ∀ (entries : List (Int × List Nat)) (w : World) (n : Nat),
      (broadcastOuter live message exclude_user entries w n).1.cm = w.cm ∧
      (broadcastOuter live message exclude_user entries w n).2 =
        n + countEntries exclude_user entries ∧
      (∀ x : Nat,
        (∀ e ∈ entries, excludeGuard exclude_user e.1 = false → x ∉ e.2) →
        (broadcastOuter live message exclude_user entries w n).1.inbox x = w.inbox x) ∧
      (∀ (x : Nat) (a : Msg), a ∈ w.inbox x →
        a ∈ (broadcastOuter live message exclude_user entries w n).1.inbox x) ∧
      (∀ e ∈ entries, excludeGuard exclude_user e.1 = false → ∀ x ∈ e.2,
        live x = true →
        message ∈ (broadcastOuter live message exclude_user entries w n).1.inbox x) := by
  intro entries
  induction entries with
  | nil =>
      intro w n
      refine ⟨rfl, by simp [broadcastOuter, countEntries], fun x _ => rfl,
        fun x a h => h, ?_⟩
      intro e he
      simp at he
  | cons head rest ih =>
      intro w n
      obtain ⟨uid, conns⟩ := head
      by_cases hg : excludeGuard exclude_user uid
      · have hstep : broadcastOuter live message exclude_user ((uid, conns) :: rest) w n =
            broadcastOuter live message exclude_user rest w n := by
          simp [broadcastOuter, hg]
        rw [hstep]
        obtain ⟨ihcm, ihcount, ihframe, ihmono, ihmem⟩ := ih w n
        refine ⟨ihcm, ?_, ?_, ihmono, ?_⟩
        · rw [ihcount]
          simp [countEntries, hg]
        · intro x hx
          exact ihframe x (fun e he hge => hx e (List.mem_cons_of_mem _ he) hge)
        · intro e he hge x hx hl
          rcases List.mem_cons.mp he with h1 | h1
          · exfalso
            rw [h1] at hge
            simp only at hge
            rw [hg] at hge
            simp at hge
          · exact ihmem e h1 hge x hx hl
      · have hstep : broadcastOuter live message exclude_user ((uid, conns) :: rest) w n =
            broadcastOuter live message exclude_user rest
              ({ cm := w.cm, inbox := deliverList live message conns w.inbox }) (n + conns.length) := by
          simp only [broadcastOuter, if_neg hg]
          rw [broadcastInner_eq]
        rw [hstep]
        obtain ⟨ihcm, ihcount, ihframe, ihmono, ihmem⟩ :=
          ih ({ cm := w.cm, inbox := deliverList live message conns w.inbox }) (n + conns.length)
        refine ⟨ihcm, ?_, ?_, ?_, ?_⟩
        · rw [ihcount]
          simp only [countEntries]
          rw [if_neg hg]
          omega
        · intro x hx
          have hxh : x ∉ conns := by
            have := hx (uid, conns) (List.mem_cons_self _ _) (by simpa using hg)
            exact this
          rw [ihframe x (fun e he hge => hx e (List.mem_cons_of_mem _ he) hge)]
          exact deliverList_not_mem live message conns w.inbox hxh
        · intro x a ha
          exact ihmono x a (mem_deliverList_mono ha)
        · intro e he hge x hx hl
          rcases List.mem_cons.mp he with h1 | h1
          · have hxc : x ∈ conns := by
              rw [h1] at hx
              exact hx
            exact ihmono x message (mem_deliverList_of_live message hl w.inbox hxc)
          · exact ihmem e h1 hge x hx hl

/-! ### Claim theorems: broadcast -/

/-- World for the C3 counterexample: user 0 connected with handle 5 and
user 1 connected with handle 6, all channels live and empty. -/
def zeroWorld : World :=
  { cm := { active_connections := [(0, [5]), (1, [6])],
            connection_times := [(5, 0), (6, 0)] },
    inbox := fun _ => [] }

/-- C3 counterexample: user 0 is connected (handle 5 is in user 0's session
set), yet `broadcast` with `exclude_user = 0` still delivers the frame to
handle 5, because the Python guard `if exclude_user and ...` treats the
user id 0 as falsy and never skips it. -/
theorem C3_counterexample :
    (0 : Int) ∈ zeroWorld.cm.get_connected_users ∧
    (5 : Nat) ∈ sessionSet zeroWorld.cm 0 ∧
    (broadcast (fun _ => true) pingMsg zeroWorld (some 0)).1.inbox 5 = [pingMsg] := by
  refine ⟨?_, ?_, ?_⟩ <;> decide

/-- C3 amended: for every connected user id U other than 0, on a registry
state where U's handles are not also registered under another user id and
starting from empty channels, `broadcast` with `exclude_user = U` delivers
to no handle of U, delivers to every live handle of every other user, never
mutates the registry, and returns the total number of handles of the
non-excluded users (with all those handles live, exactly the number of
successful deliveries). -/
theorem C3_broadcast_excludes_nonzero (live : Nat → Bool) (message : Msg)
    (w : World) (U : Int) (hU : U ≠ 0)
    (hinbox : w.inbox = fun _ => [])
    (hdisj : ∀ e ∈ w.cm.active_connections, e.1 ≠ U →
      ∀ x ∈ sessionSet w.cm U, x ∉ e.2) :
    (∀ x ∈ sessionSet w.cm U, (broadcast live message w (some U)).1.inbox x = []) ∧
    (∀ e ∈ w.cm.active_connections, e.1 ≠ U → ∀ x ∈ e.2, live x = true →
      message ∈ (broadcast live message w (some U)).1.inbox x) ∧
    (broadcast live message w (some U)).1.cm = w.cm ∧
    (broadcast live message w (some U)).2 =
      ((w.cm.active_connections.filter (fun e => decide (e.1 ≠ U))).map
        (fun e => e.2.length)).sum := by
  simp only [broadcast]
  obtain ⟨hcm, hcount, hframe, hmono, hmem⟩ :=
    broadcastOuter_spec live message (some U) w.cm.active_connections w 0
  refine ⟨?_, ?_, hcm, ?_⟩
  · intro x hx
    have h0 := hframe x (fun e he hge =>
      hdisj e he ((excludeGuard_some_false_iff hU).mp hge) x hx)
    rw [h0, hinbox]
  · intro e he hne x hx hl
    exact hmem e he ((excludeGuard_some_false_iff hU).mpr hne) x hx hl
  · rw [hcount, Nat.zero_add, countEntries_eq_filter]
    congr 1
    congr 1
    apply List.filter_congr
    intro e _
    by_cases hne : e.1 = U
    · have hg : excludeGuard (some U) e.1 = true := (excludeGuard_some_iff hU).mpr hne
      rw [hg]
      simp [hne]
    · have hg : excludeGuard (some U) e.1 = false := (excludeGuard_some_false_iff hU).mpr hne
      rw [hg]
      simp [hne]

/-- Witness for the amended C3: users 2 and 3 with one live handle each,
excluding user 2. -/
theorem C3_witness :
    (∀ x ∈ sessionSet zeroWorld.cm 1,
      (broadcast (fun _ => true) pingMsg zeroWorld (some 1)).1.inbox x = []) ∧
    (∀ e ∈ zeroWorld.cm.active_connections, e.1 ≠ 1 → ∀ x ∈ e.2,
      (fun (_ : Nat) => true) x = true →
      pingMsg ∈ (broadcast (fun _ => true) pingMsg zeroWorld (some 1)).1.inbox x) ∧
    (broadcast (fun _ => true) pingMsg zeroWorld (some 1)).1.cm = zeroWorld.cm ∧
    (broadcast (fun _ => true) pingMsg zeroWorld (some 1)).2 =
      ((zeroWorld.cm.active_connections.filter (fun e => decide (e.1 ≠ 1))).map
        (fun e => e.2.length)).sum :=
  C3_broadcast_excludes_nonzero (fun _ => true) pingMsg zeroWorld 1
    (by decide) rfl (by decide)

/-! ### Claim theorems: notification dispatcher -/

/-- World for the C5 counterexample: user 7 connected only through the dead
handle 3. -/
def deadWorld : World :=
  { cm := { active_connections := [(7, [3])], connection_times := [(3, 0)] },
    inbox := fun _ => [] }

/-- C5 counterexample: with user 7 connected only through a dead handle,
`notify_app_blocked` returns `true` (a boolean, not the claimed delivery
count) although no live handle received anything — the dead handle's
channel stays empty.  The single-recipient result therefore does not
indicate that at least one live handle received the message. -/
theorem C5_counterexample :
    (notify_app_blocked (fun _ => false) deadWorld 7 "TikTok" 0).2 = true ∧
    (fun (_ : Nat) => false) 3 = false ∧
    (notify_app_blocked (fun _ => false) deadWorld 7 "TikTok" 0).1.inbox 3 = [] := by
  refine ⟨?_, ?_, ?_⟩ <;> decide

/-- C5 amended: for a user connected through exactly the two distinct live
handles `a` and `b`, `notify_app_blocked` returns `true` (its boolean
advisory result; the underlying registry delivery count is 2), and both
handles receive exactly one frame whose `type` field is "notification",
whose `notification_type` field is "error", and whose `data.app_name` field
is the supplied app name; in general the dispatcher's single-recipient
boolean is `true` exactly when the target user has a nonempty session set
(regardless of handle liveness). -/
theorem C5_notify_app_blocked (live : Nat → Bool) (w : World) (user_id : Int)
    (app_name : String) (now : Nat) (a b : Nat)
    (hf : dictFind user_id w.cm.active_connections = some [a, b])
    (hab : a ≠ b) (hla : live a = true) (hlb : live b = true)
    (hinbox : w.inbox = fun _ => []) :
    (notify_app_blocked live w user_id app_name now).2 = true ∧
    (send_to_user live
      (notificationFrame "error" "Application bloquee"
        (app_name ++ " est maintenant bloquee - limite atteinte")
        [("app_name", app_name)] now) w user_id).2 = 2 ∧
    (notify_app_blocked live w user_id app_name now).1.inbox a =
      [notificationFrame "error" "Application bloquee"
        (app_name ++ " est maintenant bloquee - limite atteinte")
        [("app_name", app_name)] now] ∧
    (notify_app_blocked live w user_id app_name now).1.inbox b =
      [notificationFrame "error" "Application bloquee"
        (app_name ++ " est maintenant bloquee - limite atteinte")
        [("app_name", app_name)] now] ∧
    dictFind "type" (notificationFrame "error" "Application bloquee"
        (app_name ++ " est maintenant bloquee - limite atteinte")
        [("app_name", app_name)] now) = some (JVal.s "notification") ∧
    dictFind "notification_type" (notificationFrame "error" "Application bloquee"
        (app_name ++ " est maintenant bloquee - limite atteinte")
        [("app_name", app_name)] now) = some (JVal.s "error") ∧
    dictFind "data" (notificationFrame "error" "Application bloquee"
        (app_name ++ " est maintenant bloquee - limite atteinte")
        [("app_name", app_name)] now) = some (JVal.o [("app_name", app_name)]) ∧
    (∀ (w2 : World) (uid2 : Int),
      ((notify_app_blocked live w2 uid2 app_name now).2 = true ↔
        sessionSet w2.cm uid2 ≠ [])) := by
  have hbanotin : a ∉ [b] := by
    intro h
    rcases List.mem_singleton.mp h with h1
    exact hab h1
  have hdel :
      ∀ f : Msg, deliverList live f [a, b] w.inbox a = [f] ∧
        deliverList live f [a, b] w.inbox b = [f] := by
    intro f
    constructor
    · show deliverList live f [b] (deliver live f a w.inbox) a = [f]
      rw [deliverList_not_mem live f [b] _ hbanotin]
      rw [deliver_live f w.inbox hla, hinbox]
      rfl
    · show deliverList live f [b] (deliver live f a w.inbox) b = [f]
      show deliver live f b (deliver live f a w.inbox) b = [f]
      rw [deliver_live f _ hlb]
      rw [deliver_ne live f w.inbox (fun h => hab h.symm), hinbox]
      rfl
  refine ⟨?_, ?_, ?_, ?_, rfl, rfl, rfl, ?_⟩
  · simp only [notify_app_blocked, notify_user, Option.getD_some]
    rw [decide_eq_true_iff]
    rw [send_to_user_some live _ hf]
    simp
  · rw [send_to_user_some live _ hf]
    rfl
  · simp only [notify_app_blocked, notify_user, Option.getD_some]
    rw [send_to_user_some live _ hf]
    exact (hdel _).1
  · simp only [notify_app_blocked, notify_user, Option.getD_some]
    rw [send_to_user_some live _ hf]
    exact (hdel _).2
  · intro w2 uid2
    simp only [notify_app_blocked, notify_user, Option.getD_some, sessionSet]
    rw [decide_eq_true_iff]
    cases hf2 : dictFind uid2 w2.cm.active_connections with
    | none =>
        rw [send_to_user_none live _ hf2]
        simp
    | some conns =>
        rw [send_to_user_some live _ hf2]
        simp [List.length_pos]

/-- Witness for the amended C5: user 7 connected through live handles 1 and 2. -/
theorem C5_witness :
    (notify_app_blocked (fun _ => true) mixedWorld 7 "TikTok" 3).2 = true ∧
    (send_to_user (fun _ => true)
      (notificationFrame "error" "Application bloquee"
        ("TikTok" ++ " est maintenant bloquee - limite atteinte")
        [("app_name", "TikTok")] 3) mixedWorld 7).2 = 2 ∧
    (notify_app_blocked (fun _ => true) mixedWorld 7 "TikTok" 3).1.inbox 1 =
      [notificationFrame "error" "Application bloquee"
        ("TikTok" ++ " est maintenant bloquee - limite atteinte")
        [("app_name", "TikTok")] 3] ∧
    (notify_app_blocked (fun _ => true) mixedWorld 7 "TikTok" 3).1.inbox 2 =
      [notificationFrame "error" "Application bloquee"
        ("TikTok" ++ " est maintenant bloquee - limite atteinte")
        [("app_name", "TikTok")] 3] ∧
    dictFind "type" (notificationFrame "error" "Application bloquee"
        ("TikTok" ++ " est maintenant bloquee - limite atteinte")
        [("app_name", "TikTok")] 3) = some (JVal.s "notification") ∧
    dictFind "notification_type" (notificationFrame "error" "Application bloquee"
        ("TikTok" ++ " est maintenant bloquee - limite atteinte")
        [("app_name", "TikTok")] 3) = some (JVal.s "error") ∧
    dictFind "data" (notificationFrame "error" "Application bloquee"
        ("TikTok" ++ " est maintenant bloquee - limite atteinte")
        [("app_name", "TikTok")] 3) = some (JVal.o [("app_name", "TikTok")]) ∧
    (∀ (w2 : World) (uid2 : Int),
      ((notify_app_blocked (fun _ => true) w2 uid2 "TikTok" 3).2 = true ↔
        sessionSet w2.cm uid2 ≠ [])) :=
  C5_notify_app_blocked (fun _ => true) mixedWorld 7 "TikTok" 3 1 2
    rfl (by decide) rfl rfl rfl

/-! ### Unfolding equations for connect and disconnect -/

lemma connect_ac_of_found {cm : ConnectionManager} {user_id : Int}
    {conns : List Nat} (websocket : Nat) (now : Nat)
    (h : dictFind user_id cm.active_connections = some conns) :
    (cm.connect websocket user_id now).active_connections =
      dictSet user_id (setAdd websocket conns) cm.active_connections := by
  unfold ConnectionManager.connect
  simp [h]

lemma connect_ac_of_not_found {cm : ConnectionManager} {user_id : Int}
    (websocket : Nat) (now : Nat)
    (h : dictFind user_id cm.active_connections = none) :
    (cm.connect websocket user_id now).active_connections =
      dictSet user_id [websocket] (dictSet user_id [] cm.active_connections) := by
  unfold ConnectionManager.connect
  simp [h, dictFind_dictSet_self, setAdd]

lemma connect_times (cm : ConnectionManager) (websocket : Nat) (user_id : Int)
    (now : Nat) :
    (cm.connect websocket user_id now).connection_times =
      dictSet websocket now cm.connection_times := rfl

lemma disconnect_times (cm : ConnectionManager) (websocket : Nat) (user_id : Int) :
    (cm.disconnect websocket user_id).connection_times =
      dictDel websocket cm.connection_times := rfl

lemma disconnect_ac_none {cm : ConnectionManager} {user_id : Int} (websocket : Nat)
    (h : dictFind user_id cm.active_connections = none) :
    (cm.disconnect websocket user_id).active_connections =
      cm.active_connections := by
  unfold ConnectionManager.disconnect
  simp [h]

lemma disconnect_ac_some_nil {cm : ConnectionManager} {user_id : Int}
    {websocket : Nat} {conns : List Nat}
    (h : dictFind user_id cm.active_connections = some conns)
    (he : setDiscard websocket conns = []) :
    (cm.disconnect websocket user_id).active_connections =
      dictDel user_id cm.active_connections := by
  unfold ConnectionManager.disconnect
  simp [h, he]

lemma disconnect_ac_some {cm : ConnectionManager} {user_id : Int}
    {websocket : Nat} {conns : List Nat}
    (h : dictFind user_id cm.active_connections = some conns)
    (he : setDiscard websocket conns ≠ []) :
    (cm.disconnect websocket user_id).active_connections =
      dictSet user_id (setDiscard websocket conns) cm.active_connections := by
  unfold ConnectionManager.disconnect
  simp [h, he]

/-! ### Claim theorem: frame conditions of connect and disconnect -/

/-- C10: `connect(h, u)` and `disconnect(h, u)` do not touch the session set
of any user other than `u` nor the timestamp record of any handle other
than `h`; and connecting a handle already in `u`'s session set leaves the
whole mapping — hence also `get_stats` — unchanged (set deduplication). -/
theorem C10_frame_conditions (cm : ConnectionManager) (websocket : Nat)
    (user_id : Int) (now : Nat) (v : Int) (ws2 : Nat)
    (hv : v ≠ user_id) (hw : ws2 ≠ websocket) :
    dictFind v (cm.connect websocket user_id now).active_connections =
      dictFind v cm.active_connections ∧
    dictFind v (cm.disconnect websocket user_id).active_connections =
      dictFind v cm.active_connections ∧
    dictFind ws2 (cm.connect websocket user_id now).connection_times =
      dictFind ws2 cm.connection_times ∧
    dictFind ws2 (cm.disconnect websocket user_id).connection_times =
      dictFind ws2 cm.connection_times ∧
    (websocket ∈ sessionSet cm user_id →
      (cm.connect websocket user_id now).active_connections =
        cm.active_connections ∧
      (cm.connect websocket user_id now).get_stats = cm.get_stats) := by
  refine ⟨?_, ?_, ?_, ?_, ?_⟩
  · cases hf : dictFind user_id cm.active_connections with
    | none =>
        rw [connect_ac_of_not_found websocket now hf]
        rw [dictFind_dictSet_ne _ _ hv, dictFind_dictSet_ne _ _ hv]
    | some conns =>
        rw [connect_ac_of_found websocket now hf]
        rw [dictFind_dictSet_ne _ _ hv]
  · cases hf : dictFind user_id cm.active_connections with
    | none => rw [disconnect_ac_none websocket hf]
    | some conns =>
        by_cases he : setDiscard websocket conns = []
        · rw [disconnect_ac_some_nil hf he]
          rw [dictFind_dictDel_ne _ hv]
        · rw [disconnect_ac_some hf he]
          rw [dictFind_dictSet_ne _ _ hv]
  · rw [connect_times]
    rw [dictFind_dictSet_ne _ _ hw]
  · rw [disconnect_times]
    rw [dictFind_dictDel_ne _ hw]
  · intro hmem
    cases hf : dictFind user_id cm.active_connections with
    | none =>
        exfalso
        unfold sessionSet at hmem
        rw [hf] at hmem
        simp at hmem
    | some conns =>
        have hmem2 : websocket ∈ conns := by
          unfold sessionSet at hmem
          rw [hf] at hmem
          simpa using hmem
        have hac : (cm.connect websocket user_id now).active_connections =
            cm.active_connections := by
          rw [connect_ac_of_found websocket now hf, setAdd_eq_of_mem hmem2]
          exact dictSet_find_self hf
        refine ⟨hac, ?_⟩
        unfold ConnectionManager.get_stats
        rw [hac]

/-- Witness for C10 at a concrete state: user 7 already has handle 1. -/
theorem C10_witness :
    dictFind 9 (scenarioCM3.connect 1 7 5).active_connections =
      dictFind 9 scenarioCM3.active_connections ∧
    dictFind 9 (scenarioCM3.disconnect 1 7).active_connections =
      dictFind 9 scenarioCM3.active_connections ∧
    dictFind 3 (scenarioCM3.connect 1 7 5).connection_times =
      dictFind 3 scenarioCM3.connection_times ∧
    dictFind 3 (scenarioCM3.disconnect 1 7).connection_times =
      dictFind 3 scenarioCM3.connection_times ∧
    ((1 : Nat) ∈ sessionSet scenarioCM3 7 →
      (scenarioCM3.connect 1 7 5).active_connections =
        scenarioCM3.active_connections ∧
      (scenarioCM3.connect 1 7 5).get_stats = scenarioCM3.get_stats) :=
  C10_frame_conditions scenarioCM3 1 7 5 9 3 (by decide) (by decide)

/-! ### The connected-users refinement invariant (C2) -/

lemma dictFind_append {α β : Type} [DecidableEq α] (k : α) :
    ∀ l1 l2 : List (α × β), dictFind k (l1 ++ l2) =
      match dictFind k l1 with
      | some v => some v
      | none => dictFind k l2 := by
  intro l1 l2
  induction l1 with
  | nil => simp [dictFind]
  | cons p rest ih =>
      by_cases hp : p.1 = k <;> simp [dictFind, hp, ih]

lemma mem_specAdd {p q : Int × Nat} {ps : List (Int × Nat)} :
    p ∈ (if q ∈ ps then ps else ps ++ [q]) ↔ p ∈ ps ∨ p = q := by
  by_cases h : q ∈ ps
  · simp only [if_pos h]
    constructor
    · intro h2; left; exact h2
    · rintro (h2 | h2)
      · exact h2
      · rw [h2]; exact h
  · simp [if_neg h, List.mem_append]

lemma mem_specFilter {p q : Int × Nat} {ps : List (Int × Nat)} :
    p ∈ ps.filter (fun r => decide (r ≠ q)) ↔ p ∈ ps ∧ p ≠ q := by
  simp [List.mem_filter]

/-- Simulation invariant between the registry and the reference pair set:
the dict is well-formed, every mapped user has a nonempty session set whose
members are exactly the reference pairs for that user, and unmapped users
have no reference pairs. -/
def ConnInv (cm : ConnectionManager) (ps : List (Int × Nat)) : Prop :=
  keysNodup cm.active_connections ∧
  (∀ (u : Int) (conns : List Nat),
    dictFind u cm.active_connections = some conns →
      conns ≠ [] ∧ (∀ ws : Nat, ws ∈ conns ↔ (u, ws) ∈ ps)) ∧
  (∀ u : Int, dictFind u cm.active_connections = none →
    ∀ ws : Nat, (u, ws) ∉ ps)

lemma ConnInv_empty : ConnInv emptyManager [] := by
  refine ⟨by simp [keysNodup, emptyManager], ?_, ?_⟩
  · intro u conns h
    simp [emptyManager, dictFind] at h
  · intro u _ ws
    simp

lemma ConnInv_applyOp (op : Op) {cm : ConnectionManager} {ps : List (Int × Nat)}
    (h : ConnInv cm ps) : ConnInv (applyOp cm op) (specStep ps op) := by
  obtain ⟨hk, hsome, hnone⟩ := h
  cases op with
  | connect websocket user_id now =>
      simp only [applyOp, specStep]
      cases hf : dictFind user_id cm.active_connections with
      | some conns =>
          have hac := connect_ac_of_found websocket now hf
          refine ⟨?_, ?_, ?_⟩
          · unfold ConnectionManager.connect
            simp only [hf]
            simp [keysNodup_dictSet _ _ hk]
          · intro v conns' hv
            rw [hac] at hv
            by_cases hvu : v = user_id
            · subst hvu
              rw [dictFind_dictSet_self] at hv
              injection hv with hv2
              subst hv2
              refine ⟨setAdd_ne_nil _ _, ?_⟩
              intro ws
              rw [mem_setAdd, mem_specAdd]
              rw [(hsome v conns hf).2 ws]
              constructor
              · rintro (h1 | h1)
                · left; exact h1
                · right; rw [h1]
              · rintro (h1 | h1)
                · left; exact h1
                · right
                  injection h1 with h2 h3
              -- the remaining goal after injection is closed below
            · rw [dictFind_dictSet_ne _ _ hvu] at hv
              obtain ⟨hne, hmem⟩ := hsome v conns' hv
              refine ⟨hne, ?_⟩
              intro ws
              rw [hmem ws, mem_specAdd]
              constructor
              · intro h1; left; exact h1
              · rintro (h1 | h1)
                · exact h1
                · exfalso
                  apply hvu
                  injection h1 with h2 h3
          · intro v hv ws
            rw [hac] at hv
            by_cases hvu : v = user_id
            · subst hvu
              rw [dictFind_dictSet_self] at hv
              exact absurd hv (by simp)
            · rw [dictFind_dictSet_ne _ _ hvu] at hv
              rw [mem_specAdd]
              rintro (h1 | h1)
              · exact hnone v hv ws h1
              · apply hvu
                injection h1 with h2 h3
      | none =>
          have hac : (cm.connect websocket user_id now).active_connections =
              cm.active_connections ++ [(user_id, [websocket])] := by
            rw [connect_ac_of_not_found websocket now hf, dictSet_dictSet]
            exact dictSet_append _ hf
          have hfind : ∀ v : Int, dictFind v
              (cm.active_connections ++ [(user_id, [websocket])]) =
              match dictFind v cm.active_connections with
              | some conns => some conns
              | none => if user_id = v then some [websocket] else none := by
            intro v
            rw [dictFind_append]
            cases dictFind v cm.active_connections with
            | some conns => rfl
            | none => simp [dictFind]
          refine ⟨?_, ?_, ?_⟩
          · unfold keysNodup
            rw [hac]
            rw [List.map_append]
            rw [List.nodup_append]
            refine ⟨hk, by simp, ?_⟩
            intro v hv hv2
            simp at hv2
            rw [hv2] at hv
            rw [mem_keys_iff_find_isSome, hf] at hv
            simp at hv
          · intro v conns' hv
            rw [hac, hfind] at hv
            cases hg : dictFind v cm.active_connections with
            | some conns2 =>
                rw [hg] at hv
                injection hv with hv2
                subst hv2
                obtain ⟨hne, hmem⟩ := hsome v conns2 hg
                refine ⟨hne, ?_⟩
                intro ws
                rw [hmem ws, mem_specAdd]
                have hvu : v ≠ user_id := by
                  intro he
                  rw [he, hf] at hg
                  exact Option.noConfusion hg
                constructor
                · intro h1; left; exact h1
                · rintro (h1 | h1)
                  · exact h1
                  · exfalso
                    apply hvu
                    injection h1 with h2 h3
            | none =>
                rw [hg] at hv
                by_cases hvu : user_id = v
                · rw [if_pos hvu] at hv
                  injection hv with hv2
                  subst hv2
                  refine ⟨by simp, ?_⟩
                  intro ws
                  rw [mem_specAdd]
                  subst hvu
                  constructor
                  · intro h1
                    right
                    rw [List.mem_singleton.mp h1]
                  · rintro (h1 | h1)
                    · exact absurd h1 (hnone user_id hg ws)
                    · injection h1 with h2 h3
                      rw [h3]
                      simp
                · rw [if_neg hvu] at hv
                  exact Option.noConfusion hv
          · intro v hv ws
            rw [hac, hfind] at hv
            cases hg : dictFind v cm.active_connections with
            | some conns2 =>
                rw [hg] at hv
                exact Option.noConfusion hv
            | none =>
                rw [hg] at hv
                by_cases hvu : user_id = v
                · rw [if_pos hvu] at hv
                  exact Option.noConfusion hv
                · rw [if_neg hvu] at hv
                  rw [mem_specAdd]
                  rintro (h1 | h1)
                  · exact hnone v hg ws h1
                  · apply hvu
                    injection h1 with h2 h3
                    rw [h2]
  | disconnect websocket user_id =>
      simp only [applyOp, specStep]
      cases hf : dictFind user_id cm.active_connections with
      | none =>
          have hac := disconnect_ac_none websocket hf
          refine ⟨by rw [hac]; exact hk, ?_, ?_⟩
          · intro v conns' hv
            rw [hac] at hv
            obtain ⟨hne, hmem⟩ := hsome v conns' hv
            refine ⟨hne, ?_⟩
            intro ws
            rw [hmem ws, mem_specFilter]
            constructor
            · intro h1
              refine ⟨h1, ?_⟩
              intro h2
              injection h2 with h3 h4
              rw [h3] at hv
              rw [hv] at hf
              exact Option.noConfusion hf
            · rintro ⟨h1, _⟩
              exact h1
          · intro v hv ws
            rw [hac] at hv
            rw [mem_specFilter]
            rintro ⟨h1, _⟩
            exact hnone v hv ws h1
      | some conns =>
          by_cases he : setDiscard websocket conns = []
          · have hac := disconnect_ac_some_nil hf he
            refine ⟨by rw [hac]; exact keysNodup_dictDel _ hk, ?_, ?_⟩
            · intro v conns' hv
              rw [hac] at hv
              have hvu : v ≠ user_id := by
                intro h2
                rw [h2, dictFind_dictDel_self user_id hk] at hv
                exact Option.noConfusion hv
              rw [dictFind_dictDel_ne _ hvu] at hv
              obtain ⟨hne, hmem⟩ := hsome v conns' hv
              refine ⟨hne, ?_⟩
              intro ws
              rw [hmem ws, mem_specFilter]
              constructor
              · intro h1
                refine ⟨h1, ?_⟩
                intro h2
                apply hvu
                injection h2 with h3 h4
              · rintro ⟨h1, _⟩
                exact h1
            · intro v hv ws
              rw [hac] at hv
              rw [mem_specFilter]
              by_cases hvu : v = user_id
              · subst hvu
                rintro ⟨h1, h2⟩
                have h3 : ws ∈ conns := ((hsome v conns hf).2 ws).mpr h1
                have h4 : ws ≠ websocket := by
                  intro h5
                  apply h2
                  rw [h5]
                have h6 : ws ∈ setDiscard websocket conns :=
                  mem_setDiscard.mpr ⟨h3, h4⟩
                rw [he] at h6
                simp at h6
              · rw [dictFind_dictDel_ne _ hvu] at hv
                rintro ⟨h1, _⟩
                exact hnone v hv ws h1
          · have hac := disconnect_ac_some hf he
            refine ⟨by rw [hac]; exact keysNodup_dictSet _ _ hk, ?_, ?_⟩
            · intro v conns' hv
              rw [hac] at hv
              by_cases hvu : v = user_id
              · subst hvu
                rw [dictFind_dictSet_self] at hv
                injection hv with hv2
                subst hv2
                refine ⟨he, ?_⟩
                intro ws
                rw [mem_setDiscard, mem_specFilter]
                rw [(hsome v conns hf).2 ws]
                constructor
                · rintro ⟨h1, h2⟩
                  refine ⟨h1, ?_⟩
                  intro h3
                  apply h2
                  injection h3 with h4 h5
                · rintro ⟨h1, h2⟩
                  refine ⟨h1, ?_⟩
                  intro h3
                  apply h2
                  rw [h3]
              · rw [dictFind_dictSet_ne _ _ hvu] at hv
                obtain ⟨hne, hmem⟩ := hsome v conns' hv
                refine ⟨hne, ?_⟩
                intro ws
                rw [hmem ws, mem_specFilter]
                constructor
                · intro h1
                  refine ⟨h1, ?_⟩
                  intro h2
                  apply hvu
                  injection h2 with h3 h4
                · rintro ⟨h1, _⟩
                  exact h1
            · intro v hv ws
              rw [hac] at hv
              have hvu : v ≠ user_id := by
                intro h2
                rw [h2, dictFind_dictSet_self] at hv
                exact Option.noConfusion hv
              rw [dictFind_dictSet_ne _ _ hvu] at hv
              rw [mem_specFilter]
              rintro ⟨h1, _⟩
              exact hnone v hv ws h1

lemma ConnInv_runOps : ∀ (ops : List Op) (cm : ConnectionManager)
    (ps : List (Int × Nat)), ConnInv cm ps →
    ConnInv (runOps cm ops) (specRun ps ops) := by
  intro ops
  induction ops with
  | nil => intro cm ps h; exact h
  | cons op rest ih =>
      intro cm ps h
      exact ih _ _ (ConnInv_applyOp op h)

/-- C2: after every sequence of connect/disconnect events starting from the
empty registry, `get_connected_users` is duplicate-free and equals, as a
set, exactly the user ids that have at least one connected and
not-yet-disconnected handle in the reference semantics of the events; in
particular a user id is absent from the mapping exactly when it has no
remaining handle, so disconnecting a user's last handle removes its entry. -/
theorem C2_connected_users_exact (ops : List Op) :
    (runOps emptyManager ops).get_connected_users.Nodup ∧
    ∀ u : Int, (u ∈ (runOps emptyManager ops).get_connected_users ↔
      ∃ ws : Nat, (u, ws) ∈ specConnectedPairs ops) := by
  obtain ⟨hk, hsome, hnone⟩ := ConnInv_runOps ops emptyManager [] ConnInv_empty
  refine ⟨hk, ?_⟩
  intro u
  unfold ConnectionManager.get_connected_users
  rw [mem_keys_iff_find_isSome]
  unfold specConnectedPairs
  constructor
  · intro h1
    cases hg : dictFind u (runOps emptyManager ops).active_connections with
    | none =>
        rw [hg] at h1
        simp at h1
    | some conns =>
        obtain ⟨hne, hmem⟩ := hsome u conns hg
        obtain ⟨ws, hws⟩ := List.exists_mem_of_ne_nil conns hne
        exact ⟨ws, (hmem ws).mp hws⟩
  · rintro ⟨ws, hws⟩
    cases hg : dictFind u (runOps emptyManager ops).active_connections with
    | none => exact absurd hws (hnone u hg ws)
    | some conns => simp [hg]

/-! ### The timestamp-record invariant (C9) -/

/-- Validity of one event against the current registry state: a connect may
not register a handle that is currently connected under a different user
id, and a disconnect must name the user id the handle is currently
connected under (a disconnect of an unconnected handle may name any id). -/
def validOp (cm : ConnectionManager) : Op → Bool
  | Op.connect websocket user_id _ =>
      cm.active_connections.all
        (fun e => decide (e.1 = user_id) || decide (websocket ∉ e.2))
  | Op.disconnect websocket user_id =>
      cm.active_connections.all
        (fun e => decide (e.1 = user_id) || decide (websocket ∉ e.2))

/-- Validity of a whole event sequence, checked state by state. -/
def validSeq (cm : ConnectionManager) : List Op → Bool
  | [] => true
  | op :: rest => validOp cm op && validSeq (applyOp cm op) rest

/-- The registry well-formedness bundle for the timestamp invariant: both
dicts have distinct keys, session sets are duplicate-free and pairwise
disjoint, and a handle has a timestamp record iff it is in some session
set. -/
def RegInv (cm : ConnectionManager) : Prop :=
  keysNodup cm.active_connections ∧
  keysNodup cm.connection_times ∧
  (∀ e ∈ cm.active_connections, e.2.Nodup) ∧
  cm.active_connections.Pairwise (fun e1 e2 => e1.2.Disjoint e2.2) ∧
  (∀ ws : Nat, (dictFind ws cm.connection_times).isSome ↔
    ∃ e ∈ cm.active_connections, ws ∈ e.2)

lemma RegInv_empty : RegInv emptyManager := by
  refine ⟨by simp [keysNodup, emptyManager], by simp [keysNodup, emptyManager],
    ?_, ?_, ?_⟩
  · intro e he
    simp [emptyManager] at he
  · simp [emptyManager]
  · intro ws
    simp [emptyManager, dictFind]

lemma validOp_connect_spec {cm : ConnectionManager} {websocket : Nat}
    {user_id : Int} {now : Nat}
    (h : validOp cm (Op.connect websocket user_id now) = true) :
    ∀ e ∈ cm.active_connections, e.1 = user_id ∨ websocket ∉ e.2 := by
  simp only [validOp, List.all_eq_true] at h
  intro e he
  have := h e he
  simpa using this

lemma validOp_disconnect_spec {cm : ConnectionManager} {websocket : Nat}
    {user_id : Int}
    (h : validOp cm (Op.disconnect websocket user_id) = true) :
    ∀ e ∈ cm.active_connections, e.1 = user_id ∨ websocket ∉ e.2 := by
  simp only [validOp, List.all_eq_true] at h
  intro e he
  have := h e he
  simpa using this

lemma isSome_dictFind_dictSet {α β : Type} [DecidableEq α] (x k : α) (v : β)
    (l : List (α × β)) :
    (dictFind x (dictSet k v l)).isSome ↔ x = k ∨ (dictFind x l).isSome := by
  by_cases hx : x = k
  · subst hx
    rw [dictFind_dictSet_self]
    simp
  · rw [dictFind_dictSet_ne _ _ hx]
    simp [hx]

lemma pairwise_dictSet {R : (Int × List Nat) → (Int × List Nat) → Prop}
    {k : Int} {v : List Nat} :
    ∀ {l : List (Int × List Nat)}, keysNodup l → l.Pairwise R →
    (∀ e ∈ l, e.1 ≠ k → R (k, v) e ∧ R e (k, v)) →
    (dictSet k v l).Pairwise R := by
  intro l
  induction l with
  | nil =>
      intro _ _ _
      simp [dictSet]
  | cons p rest ih =>
      intro hk hl hv
      unfold keysNodup at hk
      simp only [List.map_cons, List.nodup_cons] at hk
      rw [List.pairwise_cons] at hl
      by_cases hp : p.1 = k
      · simp only [dictSet, if_pos hp]
        rw [List.pairwise_cons]
        refine ⟨?_, hl.2⟩
        intro e he
        have hek : e.1 ≠ k := by
          intro h2
          apply hk.1
          rw [hp, ← h2]
          exact List.mem_map_of_mem Prod.fst he
        exact (hv e (List.mem_cons_of_mem p he) hek).1
      · simp only [dictSet, if_neg hp]
        rw [List.pairwise_cons]
        constructor
        · intro e he
          rcases mem_dictSet_elim he with h1 | h1
          · exact hl.1 e h1
          · rw [h1]
            exact (hv p (List.mem_cons_self p rest) hp).2
        · exact ih hk.2 hl.2
            (fun e he hek => hv e (List.mem_cons_of_mem p he) hek)

lemma RegInv_applyOp (op : Op) {cm : ConnectionManager}
    (h : RegInv cm) (hval : validOp cm op = true) : RegInv (applyOp cm op) := by
  obtain ⟨hkac, hkt, hvn, hpw, hiff⟩ := h
  have hsymm : Symmetric (fun e1 e2 : Int × List Nat => e1.2.Disjoint e2.2) :=
    fun e1 e2 h12 => h12.symm
  cases op with
  | connect websocket user_id now =>
      have hval2 := validOp_connect_spec hval
      simp only [applyOp]
      have htimes := connect_times cm websocket user_id now
      cases hf : dictFind user_id cm.active_connections with
      | some conns =>
          have hconns_mem : (user_id, conns) ∈ cm.active_connections :=
            dictFind_mem hf
          have hconns_nodup : conns.Nodup := hvn _ hconns_mem
          have hac := connect_ac_of_found websocket now hf
          have hdisjadd : ∀ e ∈ cm.active_connections, e.1 ≠ user_id →
              (setAdd websocket conns).Disjoint e.2 := by
            intro e he hne x hx
            rcases mem_setAdd.mp hx with h1 | h1
            · have hne2 : (user_id, conns) ≠ e := by
                intro h2
                apply hne
                rw [← h2]
              exact List.Pairwise.forall hsymm hpw hconns_mem he hne2 h1
            · subst h1
              rcases hval2 e he with h2 | h2
              · exact absurd h2 hne
              · exact h2
          refine ⟨?_, ?_, ?_, ?_, ?_⟩
          · rw [hac]
            exact keysNodup_dictSet _ _ hkac
          · rw [htimes]
            exact keysNodup_dictSet _ _ hkt
          · intro e he
            rw [hac] at he
            rcases mem_dictSet_elim he with h1 | h1
            · exact hvn e h1
            · rw [h1]
              exact setAdd_nodup hconns_nodup
          · rw [hac]
            apply pairwise_dictSet hkac hpw
            intro e he hne
            exact ⟨hdisjadd e he hne, (hdisjadd e he hne).symm⟩
          · intro x
            rw [htimes, hac, isSome_dictFind_dictSet]
            constructor
            · rintro (h1 | h1)
              · subst h1
                refine ⟨(user_id, setAdd x conns), self_mem_dictSet _ _ _, ?_⟩
                exact mem_setAdd.mpr (Or.inr rfl)
              · obtain ⟨e, he, hx⟩ := (hiff x).mp h1
                by_cases heu : e.1 = user_id
                · have he2 : e = (user_id, conns) :=
                    mem_eq_of_find hkac hf he heu
                  refine ⟨(user_id, setAdd websocket conns),
                    self_mem_dictSet _ _ _, ?_⟩
                  apply mem_setAdd.mpr
                  left
                  rw [he2] at hx
                  exact hx
                · exact ⟨e, mem_dictSet_of_ne _ he heu, hx⟩
            · rintro ⟨e, he, hx⟩
              rcases mem_dictSet_elim he with h1 | h1
              · exact Or.inr ((hiff x).mpr ⟨e, h1, hx⟩)
              · rw [h1] at hx
                rcases mem_setAdd.mp hx with h2 | h2
                · exact Or.inr ((hiff x).mpr ⟨(user_id, conns), hconns_mem, h2⟩)
                · exact Or.inl h2
      | none =>
          have hukeys : user_id ∉ cm.active_connections.map Prod.fst :=
            (dictFind_eq_none_iff _ _).mp hf
          have hac : (cm.connect websocket user_id now).active_connections =
              cm.active_connections ++ [(user_id, [websocket])] := by
            rw [connect_ac_of_not_found websocket now hf, dictSet_dictSet]
            exact dictSet_append _ hf
          have hnotin : ∀ e ∈ cm.active_connections, websocket ∉ e.2 := by
            intro e he
            rcases hval2 e he with h2 | h2
            · exfalso
              apply hukeys
              rw [← h2]
              exact List.mem_map_of_mem Prod.fst he
            · exact h2
          refine ⟨?_, ?_, ?_, ?_, ?_⟩
          · unfold keysNodup
            rw [hac, List.map_append, List.nodup_append]
            refine ⟨hkac, by simp, ?_⟩
            intro v hv hv2
            simp at hv2
            rw [hv2] at hv
            exact hukeys hv
          · rw [htimes]
            exact keysNodup_dictSet _ _ hkt
          · intro e he
            rw [hac] at he
            rcases List.mem_append.mp he with h1 | h1
            · exact hvn e h1
            · rw [List.mem_singleton.mp h1]
              simp
          · rw [hac, List.pairwise_append]
            refine ⟨hpw, by simp, ?_⟩
            intro e1 h1 e2 h2
            rw [List.mem_singleton.mp h2]
            intro x hx hx2
            rcases List.mem_singleton.mp hx2 with h3
            rw [h3] at hx
            exact hnotin e1 h1 hx
          · intro x
            rw [htimes, hac, isSome_dictFind_dictSet]
            rw [hiff x]
            constructor
            · rintro (h1 | h1)
              · subst h1
                exact ⟨(user_id, [x]), by simp, by simp⟩
              · obtain ⟨e, he, hx⟩ := h1
                exact ⟨e, List.mem_append.mpr (Or.inl he), hx⟩
            · rintro ⟨e, he, hx⟩
              rcases List.mem_append.mp he with h1 | h1
              · exact Or.inr ⟨e, h1, hx⟩
              · rw [List.mem_singleton.mp h1] at hx
                exact Or.inl (List.mem_singleton.mp hx)
  | disconnect websocket user_id =>
      have hval2 := validOp_disconnect_spec hval
      simp only [applyOp]
      have htimes := disconnect_times cm websocket user_id
      cases hf : dictFind user_id cm.active_connections with
      | none =>
          have hac := disconnect_ac_none websocket hf
          have hukeys : user_id ∉ cm.active_connections.map Prod.fst :=
            (dictFind_eq_none_iff _ _).mp hf
          refine ⟨by rw [hac]; exact hkac, by rw [htimes]; exact keysNodup_dictDel _ hkt,
            ?_, by rw [hac]; exact hpw, ?_⟩
          · intro e he
            rw [hac] at he
            exact hvn e he
          · intro x
            rw [htimes, hac]
            by_cases hx : x = websocket
            · subst hx
              rw [dictFind_dictDel_self x hkt]
              simp only [Option.isSome_none, Bool.false_eq_true, false_iff]
              rintro ⟨e, he, hx2⟩
              rcases hval2 e he with h2 | h2
              · apply hukeys
                rw [← h2]
                exact List.mem_map_of_mem Prod.fst he
              · exact h2 hx2
            · rw [dictFind_dictDel_ne _ hx]
              exact hiff x
      | some conns =>
          have hconns_mem : (user_id, conns) ∈ cm.active_connections :=
            dictFind_mem hf
          by_cases he : setDiscard websocket conns = []
          · have hac := disconnect_ac_some_nil hf he
            refine ⟨by rw [hac]; exact keysNodup_dictDel _ hkac,
              by rw [htimes]; exact keysNodup_dictDel _ hkt, ?_, ?_, ?_⟩
            · intro e he2
              rw [hac] at he2
              exact hvn e ((dictDel_sublist _ _).subset he2)
            · rw [hac]
              exact hpw.sublist (dictDel_sublist _ _)
            · intro x
              rw [htimes, hac]
              by_cases hx : x = websocket
              · subst hx
                rw [dictFind_dictDel_self x hkt]
                simp only [Option.isSome_none, Bool.false_eq_true, false_iff]
                rintro ⟨e, he2, hx2⟩
                obtain ⟨he3, he4⟩ := (mem_dictDel_iff hkac).mp he2
                rcases hval2 e he3 with h2 | h2
                · exact he4 h2
                · exact h2 hx2
              · rw [dictFind_dictDel_ne _ hx, hiff x]
                constructor
                · rintro ⟨e, he2, hx2⟩
                  by_cases heu : e.1 = user_id
                  · exfalso
                    have he3 : e = (user_id, conns) :=
                      mem_eq_of_find hkac hf he2 heu
                    rw [he3] at hx2
                    have h4 : x ∈ setDiscard websocket conns :=
                      mem_setDiscard.mpr ⟨hx2, hx⟩
                    rw [he] at h4
                    simp at h4
                  · exact ⟨e, (mem_dictDel_iff hkac).mpr ⟨he2, heu⟩, hx2⟩
                · rintro ⟨e, he2, hx2⟩
                  exact ⟨e, ((mem_dictDel_iff hkac).mp he2).1, hx2⟩
          · have hac := disconnect_ac_some hf he
            have hdisjsub : ∀ e ∈ cm.active_connections, e.1 ≠ user_id →
                (setDiscard websocket conns).Disjoint e.2 := by
              intro e he2 hne x hx
              have hx2 : x ∈ conns := (mem_setDiscard.mp hx).1
              have hne2 : (user_id, conns) ≠ e := by
                intro h2
                apply hne
                rw [← h2]
              exact List.Pairwise.forall hsymm hpw hconns_mem he2 hne2 hx2
            refine ⟨by rw [hac]; exact keysNodup_dictSet _ _ hkac,
              by rw [htimes]; exact keysNodup_dictDel _ hkt, ?_, ?_, ?_⟩
            · intro e he2
              rw [hac] at he2
              rcases mem_dictSet_elim he2 with h1 | h1
              · exact hvn e h1
              · rw [h1]
                exact setDiscard_nodup (hvn _ hconns_mem)
            · rw [hac]
              apply pairwise_dictSet hkac hpw
              intro e he2 hne
              exact ⟨hdisjsub e he2 hne, (hdisjsub e he2 hne).symm⟩
            · intro x
              rw [htimes, hac]
              by_cases hx : x = websocket
              · subst hx
                rw [dictFind_dictDel_self x hkt]
                simp only [Option.isSome_none, Bool.false_eq_true, false_iff]
                rintro ⟨e, he2, hx2⟩
                rcases (mem_dictSet_iff hkac).mp he2 with ⟨h1, h2⟩ | h1
                · rcases hval2 e h1 with h3 | h3
                  · exact h2 h3
                  · exact h3 hx2
                · rw [h1] at hx2
                  exact (mem_setDiscard.mp hx2).2 rfl
              · rw [dictFind_dictDel_ne _ hx, hiff x]
                constructor
                · rintro ⟨e, he2, hx2⟩
                  by_cases heu : e.1 = user_id
                  · have he3 : e = (user_id, conns) :=
                      mem_eq_of_find hkac hf he2 heu
                    refine ⟨(user_id, setDiscard websocket conns),
                      self_mem_dictSet _ _ _, ?_⟩
                    apply mem_setDiscard.mpr
                    rw [he3] at hx2
                    exact ⟨hx2, hx⟩
                  · exact ⟨e, mem_dictSet_of_ne _ he2 heu, hx2⟩
                · rintro ⟨e, he2, hx2⟩
                  rcases mem_dictSet_elim he2 with h1 | h1
                  · exact ⟨e, h1, hx2⟩
                  · rw [h1] at hx2
                    exact ⟨(user_id, conns), hconns_mem,
                      (mem_setDiscard.mp hx2).1⟩

lemma RegInv_count {cm : ConnectionManager} (h : RegInv cm) :
    cm.connection_times.length = cm.get_stats.total_connections := by
  obtain ⟨hkac, hkt, hvn, hpw, hiff⟩ := h
  have hLnodup : (cm.active_connections.flatMap Prod.snd).Nodup := by
    apply List.nodup_flatMap.mpr
    exact ⟨hvn, hpw⟩
  have hKnodup : (cm.connection_times.map Prod.fst).Nodup := hkt
  have hfin : (cm.connection_times.map Prod.fst).toFinset =
      (cm.active_connections.flatMap Prod.snd).toFinset := by
    apply Finset.ext
    intro x
    rw [List.mem_toFinset, List.mem_toFinset]
    rw [mem_keys_iff_find_isSome, hiff x, List.mem_flatMap]
  have hlen : (cm.connection_times.map Prod.fst).length =
      (cm.active_connections.flatMap Prod.snd).length := by
    rw [← List.toFinset_card_of_nodup hKnodup,
      ← List.toFinset_card_of_nodup hLnodup, hfin]
  calc cm.connection_times.length
      = (cm.connection_times.map Prod.fst).length := (List.length_map _ _).symm
    _ = (cm.active_connections.flatMap Prod.snd).length := hlen
    _ = (List.map (List.length ∘ Prod.snd) cm.active_connections).sum :=
        List.length_flatMap _ _
    _ = cm.get_stats.total_connections := rfl

lemma RegInv_runOps : ∀ (ops : List Op) (cm : ConnectionManager),
    RegInv cm → validSeq cm ops = true → RegInv (runOps cm ops) := by
  intro ops
  induction ops with
  | nil =>
      intro cm h _
      exact h
  | cons op rest ih =>
      intro cm h hv
      simp only [validSeq, Bool.and_eq_true] at hv
      exact ih _ (RegInv_applyOp op h hv.1) hv.2

/-- C9: for every valid event sequence (each disconnect names the user id
the handle is connected under, and no handle is simultaneously connected
under two different user ids), the registry keeps the invariant that a
handle has a connection-timestamp record iff it belongs to some user's
session set, and the number of timestamp records equals
`get_stats().total_connections`. -/
theorem C9_timestamp_invariant (ops : List Op)
    (hvalid : validSeq emptyManager ops = true) :
    (∀ ws : Nat,
      (dictFind ws (runOps emptyManager ops).connection_times).isSome ↔
        ∃ e ∈ (runOps emptyManager ops).active_connections, ws ∈ e.2) ∧
    (runOps emptyManager ops).connection_times.length =
      ((runOps emptyManager ops).get_stats).total_connections := by
  have h := RegInv_runOps ops emptyManager RegInv_empty hvalid
  exact ⟨h.2.2.2.2, RegInv_count h⟩

/-- A concrete valid event sequence for the C9 witness. -/
def opsC9 : List Op :=
  [Op.connect 1 7 0, Op.connect 2 7 1, Op.connect 3 9 2, Op.disconnect 1 7]

/-- Witness for C9 at the concrete sequence `opsC9`. -/
theorem C9_witness :
    (∀ ws : Nat,
      (dictFind ws (runOps emptyManager opsC9).connection_times).isSome ↔
        ∃ e ∈ (runOps emptyManager opsC9).active_connections, ws ∈ e.2) ∧
    (runOps emptyManager opsC9).connection_times.length =
      ((runOps emptyManager opsC9).get_stats).total_connections :=
  C9_timestamp_invariant opsC9 (by decide)
